import Mathlib

/-!
Verification of the polymerdao/telemetry tracing and logging core.

The Go source is shallowly embedded below.  Samplers and span processors
are modelled as pure functions; a processor's forwarding of a span to its
wrapped downstream stage is modelled by an `Option` result (`some s` means
the span `s` was handed on, `none` means it was discarded).  Shutdown
callbacks are modelled by the error value they return, together with an
identifier so that the invocation trace can be stated.  Byte strings
(trace and span identifiers) are lists of natural numbers below 256.
-/

namespace Telemetry

/-! ## Sampling (src/tracing.go) -/

/-- Model of `sdktrace.SamplingDecision`: Drop, RecordOnly or RecordAndSample. -/
inductive SamplingDecision where
  | Drop
  | RecordOnly
  | RecordAndSample
deriving DecidableEq, Repr

/-- An OpenTelemetry attribute value.  The repository only ever constructs
Bool and String attribute values (`attribute.Bool`, `attribute.String`). -/
inductive AttrValue where
  | boolV (b : Bool)
  | stringV (s : String)
deriving DecidableEq, Repr

/-- Model of `attribute.Value.AsBool`: reads the raw numeric word of the value.
For a Bool value that word is the stored bool; for a String value the
numeric word is zero, so `AsBool` yields `false`. -/
def AttrValue.AsBool : AttrValue → Bool
  | .boolV b => b
  | .stringV _ => false

/-- Model of `attribute.KeyValue`. -/
structure KeyValue where
  key : String
  value : AttrValue
deriving DecidableEq, Repr

/-- Model of `var DropSpanAttribute = attribute.Bool("drop", true)`. -/
def DropSpanAttribute : KeyValue := ⟨"drop", .boolV true⟩

/-- Model of `sdktrace.SamplingParameters` (the fields the repository reads). -/
structure SamplingParameters where
  Name : String
  Attributes : List KeyValue
deriving DecidableEq, Repr

/-- Model of `sdktrace.SamplingResult`.  `SamplingResult{Decision: d}` zero-values
the remaining fields (no attributes, empty trace state). -/
structure SamplingResult where
  Decision : SamplingDecision
  Attributes : List KeyValue
  Tracestate : String
deriving DecidableEq, Repr

/-- Model of `filterSampler`: wraps a base sampler, modelled as the function from
sampling parameters to the wrapped sampler's result. -/
structure filterSampler where
  baseSampler : SamplingParameters → SamplingResult

/-- The span name the filter sampler denylists. -/
def batchWriteSpansName : String :=
  "google.devtools.cloudtrace.v2.TraceService/BatchWriteSpans"

/-- Model of `filterSampler.ShouldSample`: drop the denylisted span name, otherwise
delegate to the base sampler. -/
def filterSampler.ShouldSample (f : filterSampler)
    (p : SamplingParameters) : SamplingResult :=
  if p.Name = batchWriteSpansName then
    { Decision := .Drop, Attributes := [], Tracestate := "" }
  else
    f.baseSampler p

/-! ## Drop-attribute span processor (src/tracing.go) -/

/-- A finished span as seen by a span processor: its name and its
finished attribute set. -/
structure ReadOnlySpan where
  Name : String
  Attributes : List KeyValue
deriving DecidableEq, Repr

/-- Model of `dropSpanProcessor.OnStart`: pass the span through to the wrapped
processor unchanged.  `some` marks the span as forwarded downstream. -/
def dropSpanProcessorOnStart (s : ReadOnlySpan) : Option ReadOnlySpan :=
  some s

/-- Model of `dropSpanProcessor.OnEnd`: scan the finished attributes; on the first
attribute whose key is the drop key and whose value reads as true, return
without forwarding (`none`); otherwise forward the span unchanged. -/
def dropSpanProcessorOnEnd (s : ReadOnlySpan) : Option ReadOnlySpan :=
  if s.Attributes.any (fun attr => attr.key == DropSpanAttribute.key && attr.value.AsBool) then
    none
  else
    some s

/-! ## Shutdown aggregation (src/tracing.go, src/middleware.go: InitTracer) -/

/-- A Go `error` value as built by `errors.Join`: either a leaf error or a
join node holding the non-nil errors given to one `errors.Join` call. -/
inductive GoError where
  | errorString (msg : String)
  | joinError (errs : List GoError)

/-- Model of `errors.Join(a, b)`: nil when both arguments are nil, otherwise a join
node over the non-nil arguments in order. -/
def errorsJoin (a b : Option GoError) : Option GoError :=
  match a, b with
  | none, none => none
  | some x, none => some (.joinError [x])
  | none, some y => some (.joinError [y])
  | some x, some y => some (.joinError [x, y])

/-- The leaf error messages of an error tree, left to right. -/
def GoError.leaves : GoError → List String
  | .errorString m => [m]
  | .joinError [] => []
  | .joinError (e :: rest) => e.leaves ++ GoError.leaves (.joinError rest)

/-- Leaf messages of a possibly-nil error (`none` is Go's nil error). -/
def optLeaves : Option GoError → List String
  | none => []
  | some e => e.leaves

/-- A registered shutdown callback, modelled by an identifier (so the
invocation trace can be observed) and the error it returns when run. -/
structure ShutdownCallback where
  id : Nat
  result : Option GoError

/-- One run of the shutdown closure: the joined error it returns, the
identifiers of the callbacks it invoked in order, and the value of the
captured `shutdownFuncs` slice after the run. -/
structure ShutdownRun where
  err : Option GoError
  invoked : List Nat
  funcsAfter : List ShutdownCallback

/-- The loop body of the shutdown closure:
`for _, fn := range shutdownFuncs { err = errors.Join(err, fn(ctx)) }`,
also accumulating the trace of invoked callbacks. -/
def shutdownLoop : List ShutdownCallback → Option GoError → List Nat →
    Option GoError × List Nat
  | [], err, invoked => (err, invoked)
  | fn :: rest, err, invoked =>
      shutdownLoop rest (errorsJoin err fn.result) (invoked ++ [fn.id])

/-- One call of the shutdown closure returned by `InitTracer`: run the
loop over the captured `shutdownFuncs`, then set `shutdownFuncs = nil`. -/
def shutdownCall (shutdownFuncs : List ShutdownCallback) : ShutdownRun :=
  let r := shutdownLoop shutdownFuncs none []
  { err := r.1, invoked := r.2, funcsAfter := [] }

/-! ## Exporter selection (src/middleware.go) -/

/-- Model of `getExporterFromEnv`: the value of `OTEL_TRACES_EXPORTER` when
non-empty (Go's `os.Getenv` yields the empty string for an unset
variable), otherwise the default "gcp". -/
def getExporterFromEnv (env : String) : String :=
  if env ≠ "" then env else "gcp"

/-- Which exporter constructor the `InitTracer` switch invokes. -/
inductive ExporterCtor where
  | gcpExporter
  | awsExporter
  | otlpExporter
  | consoleExporter
  | noOpExporter
deriving DecidableEq, Repr

/-- Outcome of the exporter switch: the constructor chosen and whether the
unknown-kind warning was logged. -/
structure ExporterSelection where
  ctor : ExporterCtor
  warned : Bool
deriving DecidableEq, Repr

/-- The `switch exporterType` statement of `InitTracer`. -/
def selectExporter (exporterType : String) : ExporterSelection :=
  if exporterType = "gcp" then ⟨.gcpExporter, false⟩
  else if exporterType = "aws" ∨ exporterType = "xray" then ⟨.awsExporter, false⟩
  else if exporterType = "otlp" then ⟨.otlpExporter, false⟩
  else if exporterType = "console" ∨ exporterType = "stdout" then ⟨.consoleExporter, false⟩
  else if exporterType = "none" ∨ exporterType = "noop" then ⟨.noOpExporter, false⟩
  else ⟨.gcpExporter, true⟩

/-! ## Hex encoding of trace and span identifiers

`trace.TraceID.String` and `trace.SpanID.String` hex-encode their bytes,
high nibble first, with the lowercase alphabet `0123456789abcdef`. -/

/-- The hex digit for a nibble: code 48..57 gives the decimal digit for
0..9, code 97..102 the lowercase letter for 10..15. -/
def hexDigit (n : Nat) : Char :=
  if n < 10 then Char.ofNat (48 + n) else Char.ofNat (87 + n)

/-- Hex-encode a byte list, two characters per byte, high nibble first. -/
def bytesHexChars : List Nat → List Char
  | [] => []
  | b :: rest => hexDigit (b / 16 % 16) :: hexDigit (b % 16) :: bytesHexChars rest

/-- Hex-encode a byte list into a string (as `hex.EncodeToString`). -/
def bytesHex (bs : List Nat) : String :=
  String.mk (bytesHexChars bs)

/-! ## Span context (go.opentelemetry.io/otel/trace, as used here) -/

/-- Model of `trace.SpanContext`, with trace and span identifiers as byte lists
(16 and 8 bytes respectively in every use below). -/
structure SpanContext where
  traceID : List Nat
  spanID : List Nat
  traceFlags : Nat
  remote : Bool
deriving DecidableEq, Repr

/-- An identifier is valid when not every byte is zero. -/
def idIsValid (bytes : List Nat) : Bool :=
  bytes.any (fun b => b != 0)

/-- Model of `SpanContext.IsValid`: both the trace ID and the span ID are valid. -/
def SpanContext.IsValid (sc : SpanContext) : Bool :=
  idIsValid sc.traceID && idIsValid sc.spanID

/-- Model of `TraceFlags.IsSampled`: the sampled bit (0x1) is set. -/
def SpanContext.IsSampled (sc : SpanContext) : Bool :=
  sc.traceFlags % 2 == 1

/-- The zero `SpanContext`, returned by `trace.SpanContextFromContext`
when the context carries no span. -/
def zeroSpanContext : SpanContext :=
  ⟨List.replicate 16 0, List.replicate 8 0, 0, false⟩

/-- Model of `trace.SpanContextFromContext`, over a context modelled by the span
context it carries (if any). -/
def spanContextFromContext (ctx : Option SpanContext) : SpanContext :=
  match ctx with
  | some sc => sc
  | none => zeroSpanContext

/-! ## Trace-aware slog handler (src/unnamed/part_001) -/

/-- A `slog` attribute value (the kinds the handler adds). -/
inductive SlogValue where
  | str (s : String)
  | bool (b : Bool)
deriving DecidableEq, Repr

/-- A `slog.Attr`. -/
structure SlogAttr where
  key : String
  value : SlogValue
deriving DecidableEq, Repr

/-- A `slog.Record`: its message and its attribute list. -/
structure SlogRecord where
  message : String
  attrs : List SlogAttr
deriving DecidableEq, Repr

/-- Model of `slog.Record.AddAttrs` appends to the record's attributes. -/
def SlogRecord.AddAttrs (r : SlogRecord) (newAttrs : List SlogAttr) : SlogRecord :=
  { r with attrs := r.attrs ++ newAttrs }

/-- The three Cloud-Logging trace attributes the handler injects for a
span context. -/
def traceLogAttrs (s : SpanContext) : List SlogAttr :=
  [ ⟨"logging.googleapis.com/trace", .str (bytesHex s.traceID)⟩
  , ⟨"logging.googleapis.com/spanId", .str (bytesHex s.spanID)⟩
  , ⟨"logging.googleapis.com/trace_sampled", .bool s.IsSampled⟩ ]

/-- Model of `otelSlogHandler.Handle`, modelled as the record it hands to the
wrapped handler: when the context carries a valid span context the three
trace attributes are appended, otherwise the record is unchanged. -/
def otelSlogHandlerHandle (ctx : Option SpanContext) (record : SlogRecord) : SlogRecord :=
  let s := spanContextFromContext ctx
  if s.IsValid then
    record.AddAttrs (traceLogAttrs s)
  else
    record

/-- The derivation operations of an abstract wrapped `slog.Handler`. -/
structure SlogHandlerOps (H : Type) where
  withAttrs : H → List SlogAttr → H
  withGroup : H → String → H

/-- Model of `otelSlogHandler`: holds the wrapped handler. -/
structure otelSlogHandler (H : Type) where
  handler : H

/-- Model of `otelSlogHandler.WithAttrs`: derive the wrapped handler and re-wrap
the result in an `otelSlogHandler`. -/
def otelSlogHandler.WithAttrs (ops : SlogHandlerOps H) (h : otelSlogHandler H)
    (attrs : List SlogAttr) : otelSlogHandler H :=
  ⟨ops.withAttrs h.handler attrs⟩

/-- Model of `otelSlogHandler.WithGroup`: derive the wrapped handler and re-wrap
the result in an `otelSlogHandler`. -/
def otelSlogHandler.WithGroup (ops : SlogHandlerOps H) (h : otelSlogHandler H)
    (name : String) : otelSlogHandler H :=
  ⟨ops.withGroup h.handler name⟩

/-- Model of `otelSlogHandler.Handle`: the wrapped handler that is delegated to and
the (possibly enriched) record it receives. -/
def otelSlogHandler.Handle (h : otelSlogHandler H) (ctx : Option SpanContext)
    (record : SlogRecord) : H × SlogRecord :=
  (h.handler, otelSlogHandlerHandle ctx record)

/-! ## Span-name formatter of the HTTP middleware (src/middleware.go) -/

/-- A JSON document, for the request bodies the formatter decodes. -/
inductive Json where
  | null
  | boolean (b : Bool)
  | number (n : Int)
  | str (s : String)
  | arr (elems : List Json)
  | obj (fields : List (String × Json))

/-- ASCII lower-casing of one character, for Go's case-insensitive JSON
field-name match. -/
def asciiLowerChar (c : Char) : Char :=
  if 'A' ≤ c ∧ c ≤ 'Z' then Char.ofNat (c.toNat + 32) else c

/-- Model of `encoding/json.Unmarshal` of an object's fields into
`struct { Method string }` with tag `json:"method"`: every key matching
the tag (Go matches case-insensitively) assigns the field, a later
duplicate overwriting an earlier one; a string value is stored, a null
value is a no-op, and any other value type is an unmarshal error. -/
def decodeMethodField : List (String × Json) → String → Except String String
  | [], acc => .ok acc
  | (k, v) :: rest, acc =>
      if k.data.map asciiLowerChar = "method".data then
        match v with
        | .str s => decodeMethodField rest s
        | .null => decodeMethodField rest acc
        | _ => .error "json: cannot unmarshal value into Go struct field .method of type string"
      else
        decodeMethodField rest acc

/-- Model of `json.Unmarshal(body, &request)` for `struct { Method string }`:
an object decodes its fields, a top-level null is a no-op leaving the
zero value, and any other top-level value is an unmarshal error. -/
def unmarshalMethod : Json → Except String String
  | .obj fields => decodeMethodField fields ""
  | .null => .ok ""
  | _ => .error "json: cannot unmarshal value into Go value of type struct"

/-- The bytes of a request body, at the granularity the formatter needs:
either bytes that parse as a JSON document, or bytes that do not. -/
inductive BodyBytes where
  | validJson (j : Json)
  | invalidJson (raw : String)

/-- An `r.Body` stream: readable with given contents, or one whose
`io.ReadAll` fails. -/
inductive Body where
  | readable (content : BodyBytes)
  | readErr (msg : String)

/-- The fields of `*http.Request` the formatter touches. -/
structure HttpRequest where
  Method : String
  URLPath : String
  Body : Body

/-- The `WithSpanNameFormatter` callback of `TracingMiddleware`: read the
whole body (falling back to "METHOD path" if the read fails), restore the
body from the buffered bytes, unmarshal the JSON (falling back if that
errors), and return the decoded `method` field.  The result pairs the
returned span name with the request as downstream handlers see it. -/
def spanNameFormatter (r : HttpRequest) : String × HttpRequest :=
  match r.Body with
  | .readErr _ => (r.Method ++ " " ++ r.URLPath, r)
  | .readable content =>
      let r' : HttpRequest := { r with Body := .readable content }
      match content with
      | .invalidJson _ => (r.Method ++ " " ++ r.URLPath, r')
      | .validJson j =>
          match unmarshalMethod j with
          | .error _ => (r.Method ++ " " ++ r.URLPath, r')
          | .ok m => (m, r')

/-! ## GetParentContext (src/middleware.go) -/

/-- The numeric value of one hex character, per the character classes
`decodeHex` accepts: the decimal digits (codes 48..57) and only the
lowercase letters a-f (codes 97..102); anything else is rejected. -/
def hexCharVal (c : Char) : Option Nat :=
  if 48 ≤ c.toNat ∧ c.toNat ≤ 57 then some (c.toNat - 48)
  else if 97 ≤ c.toNat ∧ c.toNat ≤ 102 then some (c.toNat - 87)
  else none

/-- Model of `hex.DecodeString` over a character list: two hex characters per
byte, failing on a non-hex character or an odd length. -/
def decodeHexBytes : List Char → Option (List Nat)
  | [] => some []
  | [_] => none
  | c1 :: c2 :: rest =>
      match hexCharVal c1, hexCharVal c2, decodeHexBytes rest with
      | some hi, some lo, some bs => some ((16 * hi + lo) :: bs)
      | _, _, _ => none

/-- Model of `trace.TraceIDFromHex`: require length 32, decode the hex digits,
and reject the all-zero (invalid) trace ID. -/
def TraceIDFromHex (h : String) : Except String (List Nat) :=
  if h.length ≠ 32 then .error "hex encoded trace-id must have length equal to 32"
  else
    match decodeHexBytes h.data with
    | none => .error "trace-id and span-id can only contain [0-9a-f] characters, all lowercase"
    | some bs => if idIsValid bs then .ok bs else .error "trace-id can't be all zero"

/-- Model of `GetParentContext`: on an invalid trace-ID string log a warning and
return the original context; otherwise return the context carrying a
remote span context with the decoded trace ID, a zero span ID and the
sampled flag (`trace.FlagsSampled = 0x1`). -/
def GetParentContext (ctx : Option SpanContext) (traceID : String) : Option SpanContext :=
  match TraceIDFromHex traceID with
  | .error _ => ctx
  | .ok tid => some ⟨tid, List.replicate 8 0, 1, true⟩

/-- A valid trace-ID string: 32 characters, all lowercase hex digits, not
all zero (the all-zero trace ID is invalid). -/
def isValidTraceIDString (s : String) : Bool :=
  s.length == 32 && s.data.all (fun c => (hexCharVal c).isSome) &&
    s.data.any (fun c => c != '0')

/-! ## Theorems -/

/-- The function `AsBool` reads true exactly on the boolean value true (the repository
constructs only Bool and String attribute values). -/
theorem AttrValue.asBool_eq_true_iff (v : AttrValue) :
    v.AsBool = true ↔ v = .boolV true := by
  cases v <;> simp [AttrValue.AsBool]

/-- C1: for every sampling-parameters input whose span name is exactly
"google.devtools.cloudtrace.v2.TraceService/BatchWriteSpans", regardless
of its attributes and of the wrapped base sampler, `ShouldSample` returns
a result whose decision is Drop. -/
theorem filterSampler_drops_batchWriteSpans (f : filterSampler)
    (p : SamplingParameters) (h : p.Name = batchWriteSpansName) :
    (f.ShouldSample p).Decision = SamplingDecision.Drop := by
  simp [filterSampler.ShouldSample, h]

/-- Witness for C1: a BatchWriteSpans span with attributes, over a base
sampler that would RecordAndSample, is still dropped. -/
theorem filterSampler_drops_batchWriteSpans_witness :
    (filterSampler.ShouldSample ⟨fun _ => ⟨.RecordAndSample, [], ""⟩⟩
      ⟨batchWriteSpansName, [DropSpanAttribute]⟩).Decision = SamplingDecision.Drop :=
  filterSampler_drops_batchWriteSpans ⟨fun _ => ⟨.RecordAndSample, [], ""⟩⟩
    ⟨batchWriteSpansName, [DropSpanAttribute]⟩ rfl

/-- C2: for every sampling-parameters input whose span name is not the
denylisted name, `ShouldSample` returns exactly the base sampler's result,
whatever the attributes (they are never inspected). -/
theorem filterSampler_delegates (f : filterSampler) (p : SamplingParameters)
    (h : p.Name ≠ batchWriteSpansName) :
    f.ShouldSample p = f.baseSampler p := by
  simp [filterSampler.ShouldSample, h]

/-- Witness for C2: a span named "test-span" carrying the drop marker
attribute still gets exactly the base sampler's result. -/
theorem filterSampler_delegates_witness :
    filterSampler.ShouldSample ⟨fun _ => ⟨.RecordAndSample, [], ""⟩⟩
      ⟨"test-span", [DropSpanAttribute]⟩ = ⟨.RecordAndSample, [], ""⟩ :=
  filterSampler_delegates ⟨fun _ => ⟨.RecordAndSample, [], ""⟩⟩
    ⟨"test-span", [DropSpanAttribute]⟩ (by decide)

/-- C3: `OnEnd` forwards the finished span downstream unchanged if and
only if its attribute set has no attribute with key "drop" and boolean
value true; when such an attribute is present the span is discarded and
the downstream `OnEnd` never runs.  `OnStart` always forwards unchanged. -/
theorem dropSpanProcessor_spec (s : ReadOnlySpan) :
    (dropSpanProcessorOnEnd s = some s ↔
      ¬ ∃ attr ∈ s.Attributes, attr.key = "drop" ∧ attr.value = .boolV true) ∧
    (dropSpanProcessorOnEnd s = none ↔
      ∃ attr ∈ s.Attributes, attr.key = "drop" ∧ attr.value = .boolV true) ∧
    dropSpanProcessorOnStart s = some s := by
  have hiff : (s.Attributes.any
        (fun attr => attr.key == DropSpanAttribute.key && attr.value.AsBool) = true) ↔
      ∃ attr ∈ s.Attributes, attr.key = "drop" ∧ attr.value = .boolV true := by
    simp [List.any_eq_true, DropSpanAttribute, AttrValue.asBool_eq_true_iff]
  refine ⟨?_, ?_, rfl⟩ <;> rw [dropSpanProcessorOnEnd] <;>
    by_cases h : s.Attributes.any
        (fun attr => attr.key == DropSpanAttribute.key && attr.value.AsBool) = true
  · simp [h, hiff.mp h]
  · simp only [h]
    simp only [Bool.not_eq_true] at h
    simp [h, hiff.symm, h]
  · simp [h, hiff.mp h]
  · simp only [Bool.not_eq_true] at h
    simp [h, hiff.symm, h]

/-- C4: the shutdown closure is idempotent — the first call clears the
registered callback slice, so a second call invokes no callback and
returns the nil error, whatever was registered and however the first call
went. -/
theorem shutdown_idempotent (funcs : List ShutdownCallback) :
    (shutdownCall funcs).funcsAfter = [] ∧
    shutdownCall (shutdownCall funcs).funcsAfter =
      { err := none, invoked := [], funcsAfter := [] } :=
  ⟨rfl, rfl⟩

/-- The joined error's leaves are the two operands' leaves in order. -/
theorem leaves_errorsJoin (a b : Option GoError) :
    optLeaves (errorsJoin a b) = optLeaves a ++ optLeaves b := by
  cases a <;> cases b <;> simp [errorsJoin, optLeaves, GoError.leaves]

/-- The shutdown loop appends every callback's identifier to the trace,
in order. -/
theorem shutdownLoop_invoked : ∀ (funcs : List ShutdownCallback)
    (err : Option GoError) (invoked : List Nat),
    (shutdownLoop funcs err invoked).2 = invoked ++ funcs.map ShutdownCallback.id
  | [], err, invoked => by simp [shutdownLoop]
  | fn :: rest, err, invoked => by
      simp [shutdownLoop, shutdownLoop_invoked rest]

/-- The shutdown loop's error collects every callback's error leaves in
order after the accumulator's. -/
theorem shutdownLoop_leaves : ∀ (funcs : List ShutdownCallback)
    (err : Option GoError) (invoked : List Nat),
    optLeaves (shutdownLoop funcs err invoked).1 =
      optLeaves err ++ (funcs.map (fun fn => optLeaves fn.result)).flatten
  | [], err, invoked => by simp [shutdownLoop, optLeaves]
  | fn :: rest, err, invoked => by
      simp [shutdownLoop, shutdownLoop_leaves rest, leaves_errorsJoin]

/-- C5: the first shutdown call invokes every registered callback in
registration order (never stopping at a failure), and the error it
returns carries every callback's error leaves, in order — none swallowed. -/
theorem shutdown_first_call (funcs : List ShutdownCallback) :
    (shutdownCall funcs).invoked = funcs.map ShutdownCallback.id ∧
    optLeaves (shutdownCall funcs).err =
      (funcs.map (fun fn => optLeaves fn.result)).flatten := by
  constructor
  · simpa using shutdownLoop_invoked funcs none []
  · simpa [optLeaves] using shutdownLoop_leaves funcs none []

/-- Hex encoding yields two characters per byte. -/
theorem bytesHexChars_length : ∀ bs : List Nat,
    (bytesHexChars bs).length = 2 * bs.length
  | [] => rfl
  | b :: rest => by
      simp [bytesHexChars, bytesHexChars_length rest]
      omega

/-- The string `bytesHex` of a byte list has two characters per byte. -/
theorem bytesHex_length (bs : List Nat) : (bytesHex bs).length = 2 * bs.length :=
  bytesHexChars_length bs

/-- Every nibble's digit is in the lowercase hex alphabet. -/
theorem hexCharVal_hexDigit (n : Nat) (h : n < 16) :
    hexCharVal (hexDigit n) = some n := by
  interval_cases n <;> decide

/-- Every character of a hex encoding is the digit of some nibble. -/
theorem mem_bytesHexChars : ∀ (bs : List Nat), ∀ c ∈ bytesHexChars bs,
    ∃ n, n < 16 ∧ c = hexDigit n
  | [], c, hc => by simp [bytesHexChars] at hc
  | b :: rest, c, hc => by
      simp only [bytesHexChars, List.mem_cons] at hc
      rcases hc with h | h | h
      · exact ⟨b / 16 % 16, Nat.mod_lt _ (by omega), h⟩
      · exact ⟨b % 16, Nat.mod_lt _ (by omega), h⟩
      · exact mem_bytesHexChars rest c h

/-- Every character of a hex encoding is a lowercase hex digit
(accepted by `hexCharVal`). -/
theorem bytesHexChars_subset (bs : List Nat) :
    ∀ c ∈ bytesHexChars bs, (hexCharVal c).isSome = true := by
  intro c hc
  obtain ⟨n, hn, hcn⟩ := mem_bytesHexChars bs c hc
  rw [hcn, hexCharVal_hexDigit n hn]
  rfl

/-- C6: with a context carrying a valid sampled span context, `Handle`
appends exactly the three Cloud-Logging attributes to the record before
delegating — the trace ID as its 32-lowercase-hex-character encoding, the
span ID as its 16-lowercase-hex-character encoding, and the sampled flag
true; with no valid span context the record is delegated unmodified. -/
theorem otelSlogHandler_handle_spec (sc : SpanContext) (record : SlogRecord)
    (hT : sc.traceID.length = 16) (hS : sc.spanID.length = 8)
    (hv : sc.IsValid = true) (hsamp : sc.IsSampled = true) :
    otelSlogHandlerHandle (some sc) record =
      { record with attrs := record.attrs ++
          [ ⟨"logging.googleapis.com/trace", .str (bytesHex sc.traceID)⟩
          , ⟨"logging.googleapis.com/spanId", .str (bytesHex sc.spanID)⟩
          , ⟨"logging.googleapis.com/trace_sampled", .bool true⟩ ] } ∧
    (bytesHex sc.traceID).length = 32 ∧
    (∀ c ∈ (bytesHex sc.traceID).data, (hexCharVal c).isSome = true) ∧
    (bytesHex sc.spanID).length = 16 ∧
    (∀ c ∈ (bytesHex sc.spanID).data, (hexCharVal c).isSome = true) ∧
    (∀ (ctx : Option SpanContext) (r : SlogRecord),
      (spanContextFromContext ctx).IsValid = false →
        otelSlogHandlerHandle ctx r = r) := by
  refine ⟨?_, ?_, ?_, ?_, ?_, ?_⟩
  · simp [otelSlogHandlerHandle, spanContextFromContext, hv, traceLogAttrs,
      SlogRecord.AddAttrs, hsamp]
  · rw [bytesHex_length, hT]
  · exact fun c hc => bytesHexChars_subset sc.traceID c hc
  · rw [bytesHex_length, hS]
  · exact fun c hc => bytesHexChars_subset sc.spanID c hc
  · intro ctx r hinv
    simp [otelSlogHandlerHandle, hinv]

/-- Witness for C6: trace ID bytes 0x01,0,...,0 and span ID bytes
0x02,0,...,0 with the sampled flag yield the three concrete attributes of
the spec's scenario; a context without a span context leaves the record
alone. -/
theorem otelSlogHandler_handle_spec_witness :
    otelSlogHandlerHandle
        (some ⟨1 :: List.replicate 15 0, 2 :: List.replicate 7 0, 1, false⟩)
        ⟨"test message", []⟩ =
      ⟨"test message",
        [ ⟨"logging.googleapis.com/trace", .str "01000000000000000000000000000000"⟩
        , ⟨"logging.googleapis.com/spanId", .str "0200000000000000"⟩
        , ⟨"logging.googleapis.com/trace_sampled", .bool true⟩ ]⟩ ∧
    otelSlogHandlerHandle none ⟨"test message", []⟩ = ⟨"test message", []⟩ := by
  have h := otelSlogHandler_handle_spec
    ⟨1 :: List.replicate 15 0, 2 :: List.replicate 7 0, 1, false⟩
    ⟨"test message", []⟩ (by decide) (by decide) (by decide) (by decide)
  constructor
  · rw [h.1]; rfl
  · exact h.2.2.2.2.2 none ⟨"test message", []⟩ (by decide)

/-- C7: enrichment survives derivation — a handler derived via `WithAttrs`
or `WithGroup` from the enriching handler still injects the three trace
attributes into every record it delegates under a valid span context. -/
theorem otelSlogHandler_derived_enriches {H : Type} (ops : SlogHandlerOps H)
    (h : otelSlogHandler H) (attrs : List SlogAttr) (name : String)
    (sc : SpanContext) (record : SlogRecord) (hv : sc.IsValid = true) :
    (∀ a ∈ traceLogAttrs sc,
      a ∈ (((h.WithAttrs ops attrs).Handle (some sc) record).2).attrs) ∧
    (∀ a ∈ traceLogAttrs sc,
      a ∈ (((h.WithGroup ops name).Handle (some sc) record).2).attrs) := by
  have henr : otelSlogHandlerHandle (some sc) record =
      record.AddAttrs (traceLogAttrs sc) := by
    simp [otelSlogHandlerHandle, spanContextFromContext, hv]
  constructor <;> intro a ha <;>
    simp only [otelSlogHandler.Handle, otelSlogHandler.WithAttrs,
      otelSlogHandler.WithGroup, henr, SlogRecord.AddAttrs] <;>
    exact List.mem_append_right _ ha

/-- Witness for C7: a child handler derived with extra attributes and one
derived with a group name both still inject the concrete trace attribute. -/
theorem otelSlogHandler_derived_enriches_witness :
    (⟨"logging.googleapis.com/trace", .str "01000000000000000000000000000000"⟩ : SlogAttr) ∈
      ((otelSlogHandler.WithAttrs ⟨fun x _ => x + 1, fun x _ => x + 2⟩ ⟨0⟩
          [⟨"component", .str "db"⟩]).Handle
        (some ⟨1 :: List.replicate 15 0, 2 :: List.replicate 7 0, 1, false⟩)
        ⟨"m", []⟩).2.attrs ∧
    (⟨"logging.googleapis.com/trace", .str "01000000000000000000000000000000"⟩ : SlogAttr) ∈
      ((otelSlogHandler.WithGroup ⟨fun x _ => x + 1, fun x _ => x + 2⟩ ⟨0⟩
          "grp").Handle
        (some ⟨1 :: List.replicate 15 0, 2 :: List.replicate 7 0, 1, false⟩)
        ⟨"m", []⟩).2.attrs := by
  have h := otelSlogHandler_derived_enriches (H := Nat)
    ⟨fun x _ => x + 1, fun x _ => x + 2⟩ ⟨0⟩ [⟨"component", .str "db"⟩] "grp"
    ⟨1 :: List.replicate 15 0, 2 :: List.replicate 7 0, 1, false⟩
    ⟨"m", []⟩ (by decide)
  exact ⟨h.1 _ (by decide), h.2 _ (by decide)⟩

/-- C8: exporter selection is total — an unset or empty environment value
resolves to "gcp"; each recognized kind maps to its constructor without a
warning; every unrecognized kind falls back to the gcp constructor with
the warning logged, and initialization proceeds. -/
theorem exporterSelection_total :
    getExporterFromEnv "" = "gcp" ∧
    (∀ s : String, s ≠ "" → getExporterFromEnv s = s) ∧
    selectExporter "gcp" = ⟨.gcpExporter, false⟩ ∧
    selectExporter "aws" = ⟨.awsExporter, false⟩ ∧
    selectExporter "xray" = ⟨.awsExporter, false⟩ ∧
    selectExporter "otlp" = ⟨.otlpExporter, false⟩ ∧
    selectExporter "console" = ⟨.consoleExporter, false⟩ ∧
    selectExporter "stdout" = ⟨.consoleExporter, false⟩ ∧
    selectExporter "none" = ⟨.noOpExporter, false⟩ ∧
    selectExporter "noop" = ⟨.noOpExporter, false⟩ ∧
    (∀ s : String,
      s ∉ (["gcp", "aws", "xray", "otlp", "console", "stdout", "none", "noop"] : List String) →
      selectExporter s = ⟨.gcpExporter, true⟩) := by
  refine ⟨rfl, ?_, rfl, rfl, rfl, rfl, rfl, rfl, rfl, rfl, ?_⟩
  · intro s h
    simp [getExporterFromEnv, h]
  · intro s h
    simp only [List.mem_cons, List.not_mem_nil, or_false, not_or] at h
    obtain ⟨h1, h2, h3, h4, h5, h6, h7, h8⟩ := h
    simp [selectExporter, h1, h2, h3, h4, h5, h6, h7, h8]

/-- Witness for C8: the unknown kind "bogus" resolves from the
environment unchanged and falls back to the gcp constructor with exactly
the warning flag set. -/
theorem exporterSelection_total_witness :
    getExporterFromEnv "bogus" = "bogus" ∧
    selectExporter "bogus" = ⟨.gcpExporter, true⟩ :=
  ⟨exporterSelection_total.2.1 "bogus" (by decide),
   exporterSelection_total.2.2.2.2.2.2.2.2.2.2 "bogus" (by decide)⟩

/-- C9 counterexample: a POST to /rpc whose body is the valid JSON object
with no fields — the `method` field is absent, yet the formatter returns
the empty string rather than the claimed "POST /rpc" fallback. -/
theorem spanNameFormatter_counterexample :
    (spanNameFormatter ⟨"POST", "/rpc", .readable (.validJson (.obj []))⟩).1 = "" ∧
    (spanNameFormatter ⟨"POST", "/rpc", .readable (.validJson (.obj []))⟩).1 ≠
      "POST" ++ " " ++ "/rpc" :=
  ⟨rfl, by decide⟩

/-- C9 (amended): the formatter falls back to "METHOD path" exactly when
the body read fails or the bytes do not unmarshal into the method struct;
when unmarshalling succeeds it returns the decoded `method` field, which
is the empty string when the field is absent.  The request seen
downstream carries the original body bytes, unmodified. -/
theorem spanNameFormatter_spec (r : HttpRequest) :
    (spanNameFormatter r).2 = r ∧
    (∀ msg, r.Body = .readErr msg →
      (spanNameFormatter r).1 = r.Method ++ " " ++ r.URLPath) ∧
    (∀ raw, r.Body = .readable (.invalidJson raw) →
      (spanNameFormatter r).1 = r.Method ++ " " ++ r.URLPath) ∧
    (∀ j e, r.Body = .readable (.validJson j) → unmarshalMethod j = .error e →
      (spanNameFormatter r).1 = r.Method ++ " " ++ r.URLPath) ∧
    (∀ j m, r.Body = .readable (.validJson j) → unmarshalMethod j = .ok m →
      (spanNameFormatter r).1 = m) := by
  obtain ⟨method, path, body⟩ := r
  refine ⟨?_, ?_, ?_, ?_, ?_⟩
  · cases body with
    | readErr msg => rfl
    | readable content =>
        cases content with
        | invalidJson raw => rfl
        | validJson j =>
            simp only [spanNameFormatter]
            cases unmarshalMethod j <;> rfl
  · intro msg hb
    cases hb
    rfl
  · intro raw hb
    cases hb
    rfl
  · intro j e hb hm
    cases hb
    simp [spanNameFormatter, hm]
  · intro j m hb hm
    cases hb
    simp [spanNameFormatter, hm]

/-- Witness for C9 (amended): a body carrying `method` "eth_call" names
the span "eth_call" and the downstream request is unchanged; an
unreadable body falls back to "POST /rpc". -/
theorem spanNameFormatter_spec_witness :
    (spanNameFormatter
        ⟨"POST", "/rpc", .readable (.validJson (.obj [("method", .str "eth_call")]))⟩).1 =
      "eth_call" ∧
    (spanNameFormatter
        ⟨"POST", "/rpc", .readable (.validJson (.obj [("method", .str "eth_call")]))⟩).2 =
      ⟨"POST", "/rpc", .readable (.validJson (.obj [("method", .str "eth_call")]))⟩ ∧
    (spanNameFormatter ⟨"POST", "/rpc", .readErr "broken pipe"⟩).1 = "POST" ++ " " ++ "/rpc" := by
  refine ⟨?_, ?_, ?_⟩
  · exact (spanNameFormatter_spec _).2.2.2.2 _ "eth_call" rfl (by rfl)
  · exact (spanNameFormatter_spec _).1
  · exact (spanNameFormatter_spec _).2.1 "broken pipe" rfl

/-- A character accepted by `hexCharVal` is a nibble below 16 whose hex
digit is that character back. -/
theorem hexCharVal_spec (c : Char) (n : Nat) (h : hexCharVal c = some n) :
    n < 16 ∧ hexDigit n = c := by
  unfold hexCharVal at h
  split at h
  · rename_i hc
    simp only [Option.some.injEq] at h
    subst h
    refine ⟨by omega, ?_⟩
    rw [hexDigit, if_pos (by omega)]
    have e : 48 + (c.toNat - 48) = c.toNat := by omega
    rw [e, Char.ofNat_toNat]
  · split at h
    · rename_i hc
      simp only [Option.some.injEq] at h
      subst h
      refine ⟨by omega, ?_⟩
      rw [hexDigit, if_neg (by omega)]
      have e : 87 + (c.toNat - 87) = c.toNat := by omega
      rw [e, Char.ofNat_toNat]
    · exact absurd h (by simp)

/-- A successful hex decode is inverted by hex encoding, halves the
length, and yields bytes below 256. -/
theorem decodeHexBytes_spec : ∀ (cs : List Char) (bs : List Nat),
    decodeHexBytes cs = some bs →
    bytesHexChars bs = cs ∧ 2 * bs.length = cs.length ∧ ∀ b ∈ bs, b < 256
  | [], bs, h => by
      simp only [decodeHexBytes, Option.some.injEq] at h
      subst h
      simp [bytesHexChars]
  | [c], bs, h => by simp [decodeHexBytes] at h
  | c1 :: c2 :: rest, bs, h => by
      simp only [decodeHexBytes] at h
      split at h
      · rename_i hi lo bs' h1 h2 h3
        obtain ⟨hbytes, hlen, hbound⟩ := decodeHexBytes_spec rest bs' h3
        obtain ⟨hi16, hdig1⟩ := hexCharVal_spec c1 hi h1
        obtain ⟨lo16, hdig2⟩ := hexCharVal_spec c2 lo h2
        simp only [Option.some.injEq] at h
        subst h
        refine ⟨?_, ?_, ?_⟩
        · have e1 : (16 * hi + lo) / 16 % 16 = hi := by omega
          have e2 : (16 * hi + lo) % 16 = lo := by omega
          simp [bytesHexChars, hbytes, e1, e2, hdig1, hdig2]
        · simp only [List.length_cons] at hlen ⊢
          omega
        · intro b hb
          simp only [List.mem_cons] at hb
          rcases hb with hb | hb
          · omega
          · exact hbound b hb
      · exact absurd h (by simp)

/-- Hex decoding succeeds on any even-length all-hex character list. -/
theorem decodeHexBytes_total : ∀ (cs : List Char),
    cs.length % 2 = 0 → (∀ c ∈ cs, (hexCharVal c).isSome = true) →
    ∃ bs, decodeHexBytes cs = some bs
  | [], _, _ => ⟨[], rfl⟩
  | [c], hlen, _ => by simp at hlen
  | c1 :: c2 :: rest, hlen, hall => by
      obtain ⟨bs, hbs⟩ := decodeHexBytes_total rest
        (by simp only [List.length_cons] at hlen; omega)
        (fun c hc => hall c (by simp [hc]))
      obtain ⟨hi, h1⟩ := Option.isSome_iff_exists.mp (hall c1 (by simp))
      obtain ⟨lo, h2⟩ := Option.isSome_iff_exists.mp (hall c2 (by simp))
      exact ⟨(16 * hi + lo) :: bs, by simp [decodeHexBytes, h1, h2, hbs]⟩

/-- A nibble's digit is '0' exactly for the zero nibble. -/
theorem hexDigit_eq_zero_iff (n : Nat) (h : n < 16) :
    hexDigit n = '0' ↔ n = 0 := by
  interval_cases n <;> decide

/-- A byte list is a valid identifier exactly when its hex encoding has a
character other than '0'. -/
theorem idIsValid_iff_hexChars : ∀ (bs : List Nat), (∀ b ∈ bs, b < 256) →
    (idIsValid bs = true ↔ ∃ c ∈ bytesHexChars bs, c ≠ '0')
  | [], _ => by simp [idIsValid, bytesHexChars]
  | b :: rest, hb => by
      have hrec := idIsValid_iff_hexChars rest (fun x hx => hb x (List.mem_cons_of_mem _ hx))
      have hb256 : b < 256 := hb b (List.mem_cons_self _ _)
      have h1 := hexDigit_eq_zero_iff (b / 16 % 16) (Nat.mod_lt _ (by omega))
      have h2 := hexDigit_eq_zero_iff (b % 16) (Nat.mod_lt _ (by omega))
      simp only [idIsValid, List.any_cons, Bool.or_eq_true, bne_iff_ne] at hrec ⊢
      simp only [bytesHexChars, List.mem_cons]
      constructor
      · rintro (hb0 | hrest)
        · by_cases hhi : b / 16 % 16 = 0
          · have hlo : b % 16 ≠ 0 := by omega
            exact ⟨hexDigit (b % 16), Or.inr (Or.inl rfl), fun hc => hlo (h2.mp hc)⟩
          · exact ⟨hexDigit (b / 16 % 16), Or.inl rfl, fun hc => hhi (h1.mp hc)⟩
        · obtain ⟨c, hcmem, hcne⟩ := hrec.mp hrest
          exact ⟨c, Or.inr (Or.inr hcmem), hcne⟩
      · rintro ⟨c, hcmem, hcne⟩
        rcases hcmem with hc | hc | hc
        · subst hc
          have : b / 16 % 16 ≠ 0 := fun h0 => hcne (h1.mpr h0)
          left
          omega
        · subst hc
          have : b % 16 ≠ 0 := fun h0 => hcne (h2.mpr h0)
          left
          omega
        · exact Or.inr (hrec.mpr ⟨c, hc, hcne⟩)

/-- The validity predicate unfolded to a proposition. -/
theorem isValidTraceIDString_eq_true_iff (s : String) :
    isValidTraceIDString s = true ↔
      (s.length = 32 ∧ (∀ c ∈ s.data, (hexCharVal c).isSome = true) ∧
        ∃ c ∈ s.data, c ≠ '0') := by
  simp [isValidTraceIDString, List.all_eq_true, List.any_eq_true, and_assoc]

/-- C10: for every input string that is not a valid trace-ID string (32
lowercase hex characters, not all zero), `GetParentContext` returns the
input context unchanged; for every valid trace-ID string it returns a
context carrying a remote span context with the decoded trace ID (whose
hex encoding is the input string), an all-zero span ID and the sampled
flag set. -/
theorem GetParentContext_spec (ctx : Option SpanContext) (s : String) :
    (isValidTraceIDString s = false → GetParentContext ctx s = ctx) ∧
    (isValidTraceIDString s = true →
      ∃ bs, TraceIDFromHex s = .ok bs ∧ bytesHex bs = s ∧ bs.length = 16 ∧
        GetParentContext ctx s = some ⟨bs, List.replicate 8 0, 1, true⟩) := by
  constructor
  · intro hinv
    have hnot : ¬(s.length = 32 ∧ (∀ c ∈ s.data, (hexCharVal c).isSome = true) ∧
        ∃ c ∈ s.data, c ≠ '0') := by
      rw [← isValidTraceIDString_eq_true_iff]
      simp [hinv]
    by_cases hlen : s.length = 32
    · by_cases hall : ∀ c ∈ s.data, (hexCharVal c).isSome = true
      · have hzero : ∀ c ∈ s.data, c = '0' := by
          by_cases hany : ∃ c ∈ s.data, c ≠ '0'
          · exact absurd ⟨hlen, hall, hany⟩ hnot
          · push_neg at hany
            exact hany
        have hdlen : s.data.length = 32 := hlen
        obtain ⟨bs, hbs⟩ := decodeHexBytes_total s.data (by omega) hall
        obtain ⟨hchars, hblen, hbound⟩ := decodeHexBytes_spec s.data bs hbs
        have hinval : idIsValid bs = false := by
          by_contra hv
          rw [Bool.not_eq_false] at hv
          obtain ⟨c, hcmem, hcne⟩ := (idIsValid_iff_hexChars bs hbound).mp hv
          rw [hchars] at hcmem
          exact hcne (hzero c hcmem)
        simp [GetParentContext, TraceIDFromHex, hlen, hbs, hinval]
      · have hdec : decodeHexBytes s.data = none := by
          cases hbs : decodeHexBytes s.data with
          | none => rfl
          | some bs =>
              obtain ⟨hchars, _, _⟩ := decodeHexBytes_spec s.data bs hbs
              refine absurd ?_ hall
              intro c hc
              rw [← hchars] at hc
              obtain ⟨n, hn, hcn⟩ := mem_bytesHexChars bs c hc
              rw [hcn, hexCharVal_hexDigit n hn]
              rfl
        simp [GetParentContext, TraceIDFromHex, hlen, hdec]
    · simp [GetParentContext, TraceIDFromHex, hlen]
  · intro hval
    obtain ⟨hlen, hall, hany⟩ := (isValidTraceIDString_eq_true_iff s).mp hval
    have hdlen : s.data.length = 32 := hlen
    obtain ⟨bs, hbs⟩ := decodeHexBytes_total s.data (by omega) hall
    obtain ⟨hchars, hblen, hbound⟩ := decodeHexBytes_spec s.data bs hbs
    have hbs16 : bs.length = 16 := by omega
    have hvalid : idIsValid bs = true :=
      (idIsValid_iff_hexChars bs hbound).mpr (by rw [hchars]; exact hany)
    have htid : TraceIDFromHex s = .ok bs := by
      simp [TraceIDFromHex, hlen, hbs, hvalid]
    exact ⟨bs, htid, by rw [bytesHex, hchars], hbs16, by simp [GetParentContext, htid]⟩

/-- Witness for C10: the string "xyz" is invalid and leaves the context
alone; the concrete 32-character trace ID decodes to bytes 0x01,0,...,0
and installs the remote sampled span context. -/
theorem GetParentContext_spec_witness :
    GetParentContext none "xyz" = none ∧
    GetParentContext none "01000000000000000000000000000000" =
      some ⟨1 :: List.replicate 15 0, List.replicate 8 0, 1, true⟩ := by
  constructor
  · exact (GetParentContext_spec none "xyz").1 (by decide)
  · obtain ⟨bs, hok, hhex, hlen, hctx⟩ :=
      (GetParentContext_spec none "01000000000000000000000000000000").2 (by decide)
    have h2 : TraceIDFromHex "01000000000000000000000000000000" =
        .ok (1 :: List.replicate 15 0) := by rfl
    rw [h2] at hok
    injection hok with hbs
    rw [hctx, ← hbs]

end Telemetry
